import Mathlib

/-!
Shallow embedding of `csv_validator/validator.py` (juan-latorre/csv-validator-cli).

The file system and byte-level text decoding are abstracted: a file is presented
to the pipeline as a flag `pathExists : Bool` together with a decode oracle
`df : String → Option (List (List String))` mapping an encoding name to the
csv-parsed lines of the file (`none` models a `UnicodeDecodeError` for that
encoding; the inner lists are the comma-split raw fields of each physical line,
a blank line being `[]`).  Everything from `csv.DictReader`'s dict construction
onward is modelled concretely.  Python `float` averages are modelled as `ℚ`.
-/

/-- Errors raised by the pipeline.  The Python code raises `FileNotFoundError`,
`ValueError` (with distinguishing messages) and — implicitly, on `x / 0` —
`ZeroDivisionError` (whose message is always "division by zero"). -/
inductive PyError where
  | fileNotFound (msg : String)
  | valueError (msg : String)
  | zeroDivisionError
deriving DecidableEq

/-- One row as produced by `csv.DictReader`: `cells` are the header-keyed
entries (`none` models the `restval`-filled `None` for a missing field), and
`extra` models the list stored under the `None` rest-key (`[]` when the key is
absent — `DictReader` only stores a (nonempty) rest list when the row has more
fields than the header). -/
structure Row where
  cells : List (String × Option String)
  extra : List String
deriving DecidableEq

/-- Python whitespace stripped by `str.strip()` (ASCII part; the Unicode space
characters Python additionally strips play no role in this development). -/
def isPyWs (c : Char) : Bool :=
  c.toNat = 32 || c.toNat = 9 || c.toNat = 10 || c.toNat = 13 || c.toNat = 11 || c.toNat = 12

/-- Model of Python `str.strip()`. -/
def pyStrip (s : String) : String :=
  String.mk (((s.toList.dropWhile isPyWs).reverse.dropWhile isPyWs).reverse)

/-- Decimal value of a character for Python `int()`.  Python accepts every
Unicode `Nd` (decimal digit) character; the model covers the ASCII block,
the Arabic-Indic block U+0660–U+0669 and the fullwidth block U+FF10–U+FF19,
the blocks exercised in this development. -/
def pyDigitVal (c : Char) : Option Nat :=
  if 48 ≤ c.toNat ∧ c.toNat ≤ 57 then some (c.toNat - 48)
  else if 0x660 ≤ c.toNat ∧ c.toNat ≤ 0x669 then some (c.toNat - 0x660)
  else if 0xFF10 ≤ c.toNat ∧ c.toNat ≤ 0xFF19 then some (c.toNat - 0xFF10)
  else none

/-- Digit tail of a Python integer literal, after the first digit: decimal
digits in which a single underscore (code 95) may stand between two digits. -/
def pyIntDigitsAux (acc : Nat) : List Char → Option Nat
  | [] => some acc
  | [c] =>
    match pyDigitVal c with
    | some v => some (acc * 10 + v)
    | none => none
  | c :: d :: rest =>
    if c.toNat = 95 then
      match pyDigitVal d with
      | some v => pyIntDigitsAux (acc * 10 + v) rest
      | none => none
    else
      match pyDigitVal c with
      | some v => pyIntDigitsAux (acc * 10 + v) (d :: rest)
      | none => none

/-- Model of Python `int(s)` on an already-stripped string: optional ASCII
sign, then a nonempty digit sequence with single underscores allowed between
digits.  (`int` itself also tolerates surrounding whitespace; every call site
in the source strips the argument first, so that case never arises here.) -/
def pyIntParse (s : String) : Option Int :=
  match s.toList with
  | [] => none
  | c :: rest =>
    let p : Int × List Char :=
      if c.toNat = 43 then (1, rest)
      else if c.toNat = 45 then (-1, rest)
      else (1, c :: rest)
    match p.2 with
    | [] => none
    | d :: ds =>
      match pyDigitVal d with
      | some v => (pyIntDigitsAux v ds).map (fun n => p.1 * Int.ofNat n)
      | none => none

/-- Lower-case hexadecimal digit, for `repr`'s escapes. -/
def hexDigitChar (n : Nat) : Char :=
  Char.ofNat (if n < 10 then 48 + n else 87 + n)

/-- Escape one character the way Python's `repr` of a `str` does, given the
chosen quote character `q`. -/
def pyReprEscape (q : Char) (c : Char) : String :=
  if c.toNat = 92 then String.mk [Char.ofNat 92, Char.ofNat 92]
  else if c = q then String.mk [Char.ofNat 92, q]
  else if c.toNat = 9 then String.mk [Char.ofNat 92, Char.ofNat 116]
  else if c.toNat = 10 then String.mk [Char.ofNat 92, Char.ofNat 110]
  else if c.toNat = 13 then String.mk [Char.ofNat 92, Char.ofNat 114]
  else if c.toNat < 32 || c.toNat = 127 then
    String.mk [Char.ofNat 92, Char.ofNat 120, hexDigitChar (c.toNat / 16), hexDigitChar (c.toNat % 16)]
  else String.mk [c]

/-- Model of Python `repr` on a string (ASCII-faithful: characters ≥ 128 are
kept verbatim; Python escapes the non-printable ones among them, which never
occur in this development): single quotes, switching to double quotes when the
string holds a single quote but no double quote. -/
def pyReprStr (s : String) : String :=
  let cs := s.toList
  let q : Char :=
    if cs.contains (Char.ofNat 39) && !(cs.contains (Char.ofNat 34)) then Char.ofNat 34
    else Char.ofNat 39
  String.mk [q] ++ String.join (cs.map (pyReprEscape q)) ++ String.mk [q]

/-- Model of Python `str` of a `list[str]` (as in f-string interpolation of
`row[None]` and `sorted(missing)`). -/
def pyStrList (l : List String) : String :=
  "[" ++ String.intercalate ", " (l.map pyReprStr) ++ "]"

/-- Model of Python `str` of a `tuple[str, ...]` (as in the decode-failure
message). -/
def pyStrTuple (l : List String) : String :=
  match l with
  | [x] => "(" ++ pyReprStr x ++ ",)"
  | _ => "(" ++ String.intercalate ", " (l.map pyReprStr) ++ ")"

/-- `DEFAULT_ENCODINGS` from the source. -/
def DEFAULT_ENCODINGS : List String := ["utf-8", "utf-8-sig", "cp1252"]

/-- `ValidationResult` from the source (`avg_age : float | None` modelled as
`Option ℚ`). -/
structure ValidationResult where
  total_rows : Nat
  avg_age : Option ℚ
  errors : List String
  encoding_used : String
deriving DecidableEq

/-- `csv.DictReader`'s construction of one row dict from the header and the
raw field list: `dict(zip(fieldnames, row))`, missing fields filled with the
`None` restval, extra fields collected under the `None` restkey. -/
def mkRow (header vals : List String) : Row :=
  { cells := header.zip (vals.map some ++ List.replicate (header.length - vals.length) none),
    extra := vals.drop header.length }

/-- `list(csv.DictReader(f))`: the first physical line provides the field
names, each later non-blank line becomes a row dict (`DictReader` skips rows
that csv-parse to `[]`, i.e. blank lines). -/
def dictReader : List (List String) → List Row
  | [] => []
  | header :: dataRows => (dataRows.filter (fun r => !r.isEmpty)).map (mkRow header)

/-- `row.get(k) or ""`: the dict value under `k` (last binding wins, as in
`dict`), with both an absent key and a stored `None` collapsed to `""`
(Python's `or` also sends the falsy `""` to `""`). -/
def getOrEmpty (row : Row) (k : String) : String :=
  match row.cells.reverse.find? (fun kv => kv.1 == k) with
  | some kv => match kv.2 with
    | some v => v
    | none => ""
  | none => ""

/-- `any(v is None for k, v in row.items() if k is not None)` — the underflow
test of `validate_rows` (the `cells` list only holds the non-`None` keys). -/
def hasMissing (row : Row) : Bool :=
  row.cells.any (fun kv => kv.2.isNone)

/-- Error message of the decode-failure `ValueError` in `read_csv_rows`. -/
def decodeFailMsg (encodings : List String) : String :=
  "Could not decode file using encodings: " ++ pyStrTuple encodings

/-- The `for enc in encodings` loop of `read_csv_rows`: `all` keeps the full
original list for the failure message. -/
def read_csv_rows_go (df : String → Option (List (List String))) (all : List String) :
    List String → Except PyError (List Row × String)
  | [] => .error (.valueError (decodeFailMsg all))
  | e :: rest =>
    match df e with
    | some rawRows => .ok (dictReader rawRows, e)
    | none => read_csv_rows_go df all rest

/-- `read_csv_rows` from the source, over the decode oracle `df`. -/
def read_csv_rows (df : String → Option (List (List String))) (encodings : List String) :
    Except PyError (List Row × String) :=
  read_csv_rows_go df encodings encodings

/-- `validate_file_exists` from the source (`path.exists()` abstracted to the
flag `pathExists`). -/
def validate_file_exists (pathExists : Bool) (path : String) : Except PyError Unit :=
  if pathExists then .ok () else .error (.fileNotFound ("File not found: " ++ path))

/-- `set(rows[0].keys())` restricted to the string keys (the possible `None`
restkey can never witness a missing *required* column, which are strings). -/
def headerCols (rows : List Row) : List String :=
  match rows with
  | [] => []
  | r :: _ => r.cells.map (fun kv => kv.1)

/-- `missing = expected_columns - columns` (a set of strings, modelled as a
deduplicated list). -/
def missingCols (rows : List Row) (expected : List String) : List String :=
  (expected.filter (fun c => !(headerCols rows).contains c)).dedup

/-- `validate_columns` from the source. -/
def validate_columns (rows : List Row) (expected_columns : List String) : Except PyError Unit :=
  if rows.isEmpty then .error (.valueError "CSV has no rows")
  else if (missingCols rows expected_columns).isEmpty then .ok ()
  else .error (.valueError ("Missing columns: " ++
    pyStrList (List.insertionSort (fun a b => a ≤ b) (missingCols rows expected_columns))))

/-- Overflow message of `validate_rows`. -/
def tooManyMsg (i : Nat) (extra : List String) : String :=
  "Row " ++ toString i ++ ": Too many columns (extra data: " ++ pyStrList extra ++ ")"

/-- Underflow message of `validate_rows`. -/
def missingColsMsg (i : Nat) : String :=
  "Row " ++ toString i ++ ": Missing columns"

/-- Invalid-age message of `validate_rows` (`value` is the stripped value,
shown through `repr`). -/
def invalidAgeMsg (i : Nat) (age_column value : String) : String :=
  "Row " ++ toString i ++ ": invalid " ++ age_column ++ " -> " ++ pyReprStr value

/-- The `for i, row in enumerate(rows, start=1)` loop of `validate_rows`, with
its growing `errors` accumulator; each branch mirrors one `continue`. -/
def validate_rows_go (age_column : String) : Nat → List String → List Row → List String
  | _, errors, [] => errors
  | i, errors, row :: rest =>
    if !row.extra.isEmpty then
      validate_rows_go age_column (i + 1) (errors ++ [tooManyMsg i row.extra]) rest
    else if hasMissing row then
      validate_rows_go age_column (i + 1) (errors ++ [missingColsMsg i]) rest
    else
      match pyIntParse (pyStrip (getOrEmpty row age_column)) with
      | some _ => validate_rows_go age_column (i + 1) errors rest
      | none =>
        validate_rows_go age_column (i + 1)
          (errors ++ [invalidAgeMsg i age_column (pyStrip (getOrEmpty row age_column))]) rest

/-- `validate_rows` from the source. -/
def validate_rows (rows : List Row) (age_column : String) : List String :=
  validate_rows_go age_column 1 [] rows

/-- Message of the `ValueError` Python's `int()` raises on an unparseable
string. -/
def intLiteralErrMsg (v : String) : String :=
  "invalid literal for int() with base 10: " ++ pyReprStr v

/-- The `[int((r.get(age_column) or "").strip()) for r in rows]` comprehension
of `compute_summary`, which raises on the first unparseable age. -/
def intsOfRows (rows : List Row) (age_column : String) : Except PyError (List Int) :=
  match rows with
  | [] => .ok []
  | r :: rs =>
    match pyIntParse (pyStrip (getOrEmpty r age_column)) with
    | none => .error (.valueError (intLiteralErrMsg (pyStrip (getOrEmpty r age_column))))
    | some n =>
      match intsOfRows rs age_column with
      | .error e => .error e
      | .ok l => .ok (n :: l)

/-- `compute_summary` from the source: the comprehension is evaluated first,
then `sum(ages) / total` — which raises `ZeroDivisionError` when `total`
is `0`. -/
def compute_summary (rows : List Row) (age_column : String) : Except PyError (Nat × ℚ) :=
  match intsOfRows rows age_column with
  | .error e => .error e
  | .ok ages =>
    let total := rows.length
    if total = 0 then .error .zeroDivisionError
    else .ok (total, ((ages.sum : Int) : ℚ) / (total : ℚ))

/-- `validate_csv` from the source: the sequential pipeline, each raising
stage's error propagating unwrapped. -/
def validate_csv (pathExists : Bool) (path : String)
    (df : String → Option (List (List String)))
    (expected_columns : List String) (age_column : String) :
    Except PyError ValidationResult :=
  match validate_file_exists pathExists path with
  | .error e => .error e
  | .ok _ =>
    match read_csv_rows df DEFAULT_ENCODINGS with
    | .error e => .error e
    | .ok (rows, enc) =>
      match validate_columns rows expected_columns with
      | .error e => .error e
      | .ok _ =>
        let errors := validate_rows rows age_column
        if !errors.isEmpty then
          .ok { total_rows := rows.length, avg_age := none, errors := errors,
                encoding_used := enc }
        else
          match compute_summary rows age_column with
          | .error e => .error e
          | .ok (total, avg) =>
            .ok { total_rows := total, avg_age := some avg, errors := [],
                  encoding_used := enc }

/-! ## Spec-side definitions -/

/-- Spec-side per-row check, written from the spec's words: in row order the
checks are overflow, then underflow, then the age parse; the first match wins
and contributes exactly one message, a clean row contributes nothing. -/
def rowIssueSpec (i : Nat) (row : Row) (age_column : String) : List String :=
  if row.extra ≠ [] then [tooManyMsg i row.extra]
  else if hasMissing row then [missingColsMsg i]
  else if (pyIntParse (pyStrip (getOrEmpty row age_column))).isSome then []
  else [invalidAgeMsg i age_column (pyStrip (getOrEmpty row age_column))]

/-- Spec-side reading of "base-10 integer string": an optional ASCII sign
followed by a nonempty run of ASCII decimal digits. -/
def isBase10IntString (s : String) : Bool :=
  let cs := s.toList
  let body := match cs with
    | c :: rest => if c.toNat = 43 || c.toNat = 45 then rest else cs
    | [] => []
  !body.isEmpty && body.all (fun c => 48 ≤ c.toNat && c.toNat ≤ 57)

/-- The characters after the optional ASCII sign of a candidate integer
literal. -/
def stripSign (cs : List Char) : List Char :=
  match cs with
  | c :: rest => if c.toNat = 43 ∨ c.toNat = 45 then rest else cs
  | [] => []

/-- Spec-side grammar of the digit part Python's `int()` accepts: decimal
digits (Unicode decimal digits included) in which a single underscore may
stand between two digits. -/
inductive PyDigits : List Char → Prop
  | one (c : Char) : (pyDigitVal c).isSome → PyDigits [c]
  | cons (c : Char) (l : List Char) : (pyDigitVal c).isSome → PyDigits l → PyDigits (c :: l)
  | group (c : Char) (l : List Char) :
      (pyDigitVal c).isSome → PyDigits l → PyDigits (c :: Char.ofNat 95 :: l)

/-- Spec-side grammar of the full string Python's `int()` accepts (post
strip): an optional ASCII sign followed by a `PyDigits` digit part. -/
def PyIntLiteral (s : String) : Prop :=
  PyDigits (stripSign s.toList)

/-! ## Helper lemmas -/

theorem validate_rows_go_eq (age_column : String) :
    ∀ (rows : List Row) (i : Nat) (acc : List String),
      validate_rows_go age_column i acc rows =
        acc ++ List.flatten ((List.enumFrom i rows).map (fun p => rowIssueSpec p.1 p.2 age_column))
  | [], i, acc => by simp [validate_rows_go]
  | row :: rest, i, acc => by
    by_cases hex : row.extra = []
    · by_cases hm : hasMissing row
      · simp [validate_rows_go, rowIssueSpec, hex, hm,
          validate_rows_go_eq age_column rest (i + 1)]
      · cases hp : pyIntParse (pyStrip (getOrEmpty row age_column)) with
        | none =>
          simp [validate_rows_go, rowIssueSpec, hex, hm, hp,
            validate_rows_go_eq age_column rest (i + 1)]
        | some n =>
          simp [validate_rows_go, rowIssueSpec, hex, hm, hp,
            validate_rows_go_eq age_column rest (i + 1)]
    · have hex2 : row.extra.isEmpty = false := by
        simpa [List.isEmpty_iff] using hex
      simp [validate_rows_go, rowIssueSpec, hex, hex2,
        validate_rows_go_eq age_column rest (i + 1)]

theorem validate_rows_eq (rows : List Row) (age_column : String) :
    validate_rows rows age_column =
      List.flatten ((List.enumFrom 1 rows).map (fun p => rowIssueSpec p.1 p.2 age_column)) := by
  simpa using validate_rows_go_eq age_column rows 1 []

theorem read_csv_rows_go_eq (df : String → Option (List (List String))) (all : List String) :
    ∀ (l : List String),
      read_csv_rows_go df all l =
        match List.find? (fun e => (df e).isSome) l with
        | some e => .ok (dictReader ((df e).getD []), e)
        | none => .error (.valueError (decodeFailMsg all))
  | [] => by simp [read_csv_rows_go]
  | e :: rest => by
    cases h : df e with
    | some rawRows => simp [read_csv_rows_go, h, List.find?]
    | none => simp [read_csv_rows_go, h, List.find?, read_csv_rows_go_eq df all rest]

theorem read_csv_rows_eq (df : String → Option (List (List String))) (encodings : List String) :
    read_csv_rows df encodings =
      match List.find? (fun e => (df e).isSome) encodings with
      | some e => .ok (dictReader ((df e).getD []), e)
      | none => .error (.valueError (decodeFailMsg encodings)) :=
  read_csv_rows_go_eq df encodings encodings

theorem read_csv_rows_error_shape (df : String → Option (List (List String)))
    (encodings : List String) (e : PyError)
    (h : read_csv_rows df encodings = .error e) : ∃ m, e = PyError.valueError m := by
  rw [read_csv_rows_eq] at h
  cases hf : List.find? (fun e2 => (df e2).isSome) encodings with
  | some enc => rw [hf] at h; exact absurd h (by simp)
  | none => rw [hf] at h; exact ⟨decodeFailMsg encodings, by simpa using h.symm⟩

theorem validate_columns_error_shape (rows : List Row) (expected : List String) (e : PyError)
    (h : validate_columns rows expected = .error e) : ∃ m, e = PyError.valueError m := by
  unfold validate_columns at h
  split at h
  · exact ⟨"CSV has no rows", by simpa using h.symm⟩
  · split at h
    · exact absurd h (by simp)
    · exact ⟨_, by simpa using h.symm⟩

theorem validate_columns_ok_ne_nil (rows : List Row) (expected : List String)
    (h : validate_columns rows expected = .ok ()) : rows ≠ [] := by
  unfold validate_columns at h
  split at h
  · exact absurd h (by simp)
  · intro hnil
    subst hnil
    simp_all

theorem intsOfRows_error_shape (age_column : String) :
    ∀ (rows : List Row) (e : PyError),
      intsOfRows rows age_column = .error e → ∃ m, e = PyError.valueError m
  | [], e => by simp [intsOfRows]
  | r :: rs, e => by
    intro h
    unfold intsOfRows at h
    cases hp : pyIntParse (pyStrip (getOrEmpty r age_column)) with
    | none =>
      rw [hp] at h
      exact ⟨_, by simpa using h.symm⟩
    | some n =>
      rw [hp] at h
      cases hrec : intsOfRows rs age_column with
      | error e2 =>
        rw [hrec] at h
        obtain ⟨m, hm⟩ := intsOfRows_error_shape age_column rs e2 hrec
        exact ⟨m, by simp at h; simp [← h, hm]⟩
      | ok l => rw [hrec] at h; exact absurd h (by simp)

theorem compute_summary_ok_total (rows : List Row) (age_column : String) (t : Nat) (a : ℚ)
    (h : compute_summary rows age_column = .ok (t, a)) : t = rows.length := by
  unfold compute_summary at h
  cases hi : intsOfRows rows age_column with
  | error e => rw [hi] at h; exact absurd h (by simp)
  | ok ages =>
    rw [hi] at h
    by_cases hlen : rows.length = 0
    · simp [hlen] at h
    · simp only [hlen, if_false] at h
      simp at h
      exact h.1.symm

theorem compute_summary_error_shape (rows : List Row) (age_column : String) (e : PyError)
    (h : compute_summary rows age_column = .error e) :
    (e = PyError.zeroDivisionError ∧ rows = []) ∨ ∃ m, e = PyError.valueError m := by
  unfold compute_summary at h
  cases hi : intsOfRows rows age_column with
  | error e2 =>
    rw [hi] at h
    simp at h
    subst h
    exact Or.inr (intsOfRows_error_shape age_column rows e2 hi)
  | ok ages =>
    rw [hi] at h
    by_cases hlen : rows.length = 0
    · simp only [hlen, if_true] at h
      simp at h
      exact Or.inl ⟨h.symm, List.length_eq_zero.mp hlen⟩
    · simp only [hlen, if_false] at h
      simp at h

theorem validate_csv_ok_inv (pathExists : Bool) (path : String)
    (df : String → Option (List (List String)))
    (expected : List String) (age_column : String) (r : ValidationResult)
    (h : validate_csv pathExists path df expected age_column = .ok r) :
    ∃ rows enc, read_csv_rows df DEFAULT_ENCODINGS = .ok (rows, enc) ∧
      validate_columns rows expected = .ok () ∧ rows ≠ [] ∧
      r.encoding_used = enc ∧ r.total_rows = rows.length ∧
      ((validate_rows rows age_column ≠ [] ∧ r.errors = validate_rows rows age_column ∧
          r.avg_age = none) ∨
        (validate_rows rows age_column = [] ∧ r.errors = [] ∧ ∃ avg, r.avg_age = some avg)) := by
  unfold validate_csv at h
  cases pathExists with
  | false => exact absurd h (by simp [validate_file_exists])
  | true =>
    simp only [validate_file_exists, if_true] at h
    cases hr : read_csv_rows df DEFAULT_ENCODINGS with
    | error e => rw [hr] at h; exact absurd h (by simp)
    | ok p =>
      obtain ⟨rows, enc⟩ := p
      rw [hr] at h
      dsimp only at h
      cases hc : validate_columns rows expected with
      | error e => rw [hc] at h; dsimp only at h; exact absurd h (by simp)
      | ok u =>
        cases u
        rw [hc] at h
        dsimp only at h
        refine ⟨rows, enc, rfl, hc, validate_columns_ok_ne_nil rows expected hc, ?_⟩
        by_cases he : validate_rows rows age_column = []
        · simp only [he] at h
          simp at h
          cases hs : compute_summary rows age_column with
          | error e => rw [hs] at h; dsimp only at h; exact absurd h (by simp)
          | ok q =>
            obtain ⟨total, avg⟩ := q
            rw [hs] at h
            dsimp only at h
            simp at h
            have ht := compute_summary_ok_total rows age_column total avg hs
            refine ⟨?_, ?_, Or.inr ⟨he, ?_, ⟨avg, ?_⟩⟩⟩ <;> simp [← h, ht]
        · have he2 : (validate_rows rows age_column).isEmpty = false := by
            simpa [List.isEmpty_iff] using he
          simp only [he2] at h
          simp at h
          refine ⟨?_, ?_, Or.inl ⟨he, ?_, ?_⟩⟩ <;> simp [← h]

theorem PyDigits_not_nil : ¬ PyDigits [] := by
  intro h
  cases h

theorem PyDigits_head (l : List Char) (h : PyDigits l) :
    ∃ c t, l = c :: t ∧ (pyDigitVal c).isSome := by
  cases h with
  | one c hc => exact ⟨c, [], rfl, hc⟩
  | cons c t hc _ => exact ⟨c, t, rfl, hc⟩
  | group c t hc _ => exact ⟨c, Char.ofNat 95 :: t, rfl, hc⟩

theorem pyDigitVal_us : pyDigitVal (Char.ofNat 95) = none := by decide

theorem char_eq_of_toNat_95 (x : Char) (h : x.toNat = 95) : x = Char.ofNat 95 := by
  have hx := Char.ofNat_toNat x
  rw [h] at hx
  exact hx.symm

theorem pyIntDigitsAux_isSome_iff :
    ∀ (n : Nat) (l : List Char), l.length ≤ n → ∀ (acc : Nat) (c : Char),
      (pyDigitVal c).isSome → ((pyIntDigitsAux acc l).isSome ↔ PyDigits (c :: l)) := by
  intro n
  induction n with
  | zero =>
    intro l hl acc c hc
    have hnil : l = [] := List.length_eq_zero.mp (Nat.le_zero.mp hl)
    subst hnil
    simp [pyIntDigitsAux]
    exact PyDigits.one c hc
  | succ n ih =>
    intro l hl acc c hc
    rcases l with _ | ⟨x, _ | ⟨y, rest⟩⟩
    · simp [pyIntDigitsAux]
      exact PyDigits.one c hc
    · cases hx : pyDigitVal x with
      | some v =>
        simp [pyIntDigitsAux, hx]
        exact PyDigits.cons c [x] hc (PyDigits.one x (by simp [hx]))
      | none =>
        simp [pyIntDigitsAux, hx]
        intro h
        cases h with
        | cons _ _ _ h2 =>
          cases h2 with
          | one _ hx2 => rw [hx] at hx2; simp at hx2
          | cons _ _ hx2 h3 => exact absurd h3 PyDigits_not_nil
        | group _ _ _ h2 => exact absurd h2 PyDigits_not_nil
    · by_cases hx95 : x.toNat = 95
      · have hxeq := char_eq_of_toNat_95 x hx95
        subst hxeq
        cases hy : pyDigitVal y with
        | some v =>
          have hlen : rest.length ≤ n := by simp at hl; omega
          have hrec := ih rest hlen (acc * 10 + v) y (by simp [hy])
          simp only [pyIntDigitsAux, if_pos hx95, hy]
          rw [hrec]
          constructor
          · intro h
            exact PyDigits.group c (y :: rest) hc h
          · intro h
            cases h with
            | cons _ _ _ h2 =>
              obtain ⟨c2, t2, he, hd⟩ := PyDigits_head _ h2
              cases he
              rw [pyDigitVal_us] at hd
              simp at hd
            | group _ _ _ h2 => exact h2
        | none =>
          simp only [pyIntDigitsAux, if_pos hx95, hy]
          simp
          intro h
          cases h with
          | cons _ _ _ h2 =>
            obtain ⟨c2, t2, he, hd⟩ := PyDigits_head _ h2
            cases he
            rw [pyDigitVal_us] at hd
            simp at hd
          | group _ _ _ h2 =>
            obtain ⟨c2, t2, he, hd⟩ := PyDigits_head _ h2
            cases he
            rw [hy] at hd
            simp at hd
      · cases hx : pyDigitVal x with
        | some v =>
          have hlen : (y :: rest).length ≤ n := by simp at hl ⊢; omega
          have hrec := ih (y :: rest) hlen (acc * 10 + v) x (by simp [hx])
          simp only [pyIntDigitsAux, if_neg hx95, hx]
          rw [hrec]
          constructor
          · intro h
            exact PyDigits.cons c (x :: y :: rest) hc h
          · intro h
            cases h with
            | cons _ _ _ h2 => exact h2
            | group _ _ _ h2 => exact absurd (by decide : (Char.ofNat 95).toNat = 95) hx95
        | none =>
          simp only [pyIntDigitsAux, if_neg hx95, hx]
          simp
          intro h
          cases h with
          | cons _ _ _ h2 =>
            obtain ⟨c2, t2, he, hd⟩ := PyDigits_head _ h2
            cases he
            rw [hx] at hd
            simp at hd
          | group _ _ _ h2 => exact absurd (by decide : (Char.ofNat 95).toNat = 95) hx95

theorem not_PyDigits_of_head_not_digit (d : Char) (l : List Char)
    (hd : pyDigitVal d = none) : ¬ PyDigits (d :: l) := by
  intro h
  obtain ⟨c2, t2, he, hdig⟩ := PyDigits_head _ h
  rw [List.cons.injEq] at he
  rw [← he.1, hd] at hdig
  simp at hdig

theorem isSome_map_mul (k : Int) (o : Option Nat) :
    (Option.map (fun n => k * Int.ofNat n) o).isSome = o.isSome := by
  cases o <;> rfl

theorem pyIntParse_isSome_iff (s : String) : (pyIntParse s).isSome ↔ PyIntLiteral s := by
  unfold pyIntParse PyIntLiteral stripSign
  cases hcs : s.toList with
  | nil =>
    simp
    exact PyDigits_not_nil
  | cons c rest =>
    by_cases h43 : c.toNat = 43
    · simp only [if_pos h43, if_pos (Or.inl h43)]
      cases rest with
      | nil =>
        simp
        exact PyDigits_not_nil
      | cons d tail =>
        cases hd : pyDigitVal d with
        | some v =>
          simp only [hd]
          rw [isSome_map_mul]
          exact pyIntDigitsAux_isSome_iff tail.length tail le_rfl v d (by simp [hd])
        | none =>
          simp only [hd]
          simp
          exact not_PyDigits_of_head_not_digit d tail hd
    · by_cases h45 : c.toNat = 45
      · simp only [if_neg h43, if_pos h45, if_pos (Or.inr h45)]
        cases rest with
        | nil =>
          simp
          exact PyDigits_not_nil
        | cons d tail =>
          cases hd : pyDigitVal d with
          | some v =>
            simp only [hd]
            rw [isSome_map_mul]
            exact pyIntDigitsAux_isSome_iff tail.length tail le_rfl v d (by simp [hd])
          | none =>
            simp only [hd]
            simp
            exact not_PyDigits_of_head_not_digit d tail hd
      · have hor : ¬ (c.toNat = 43 ∨ c.toNat = 45) := by
          intro h
          cases h with
          | inl h => exact h43 h
          | inr h => exact h45 h
        simp only [if_neg h43, if_neg h45, if_neg hor]
        cases hd : pyDigitVal c with
        | some v =>
          simp only [hd]
          rw [isSome_map_mul]
          exact pyIntDigitsAux_isSome_iff rest.length rest le_rfl v c (by simp [hd])
        | none =>
          simp only [hd]
          simp
          exact not_PyDigits_of_head_not_digit c rest hd

theorem mkRow_extra_iff (header vals : List String) :
    (mkRow header vals).extra ≠ [] ↔ header.length < vals.length := by
  simp only [mkRow]
  rw [ne_eq, List.drop_eq_nil_iff]
  omega

theorem hasMissing_mkRow :
    ∀ (header vals : List String),
      hasMissing (mkRow header vals) = decide (vals.length < header.length)
  | [], vals => by simp [mkRow, hasMissing]
  | h :: hs, [] => by
    simp [mkRow, hasMissing, List.replicate_succ, List.zip_cons_cons]
  | h :: hs, v :: vs => by
    have ih := hasMissing_mkRow hs vs
    simp only [mkRow, hasMissing] at ih ⊢
    simp only [List.map_cons, List.cons_append, List.length_cons, Nat.succ_sub_succ,
      List.zip_cons_cons, List.any_cons]
    rw [ih]
    simp

theorem mem_missingCols (rows : List Row) (expected : List String) (c : String) :
    c ∈ missingCols rows expected ↔ (c ∈ expected ∧ c ∉ headerCols rows) := by
  simp [missingCols, List.mem_dedup, List.mem_filter]

theorem missingCols_nil_iff (rows : List Row) (expected : List String) :
    missingCols rows expected = [] ↔ ∀ c ∈ expected, c ∈ headerCols rows := by
  constructor
  · intro h c hc
    by_contra hnc
    have : c ∈ missingCols rows expected := (mem_missingCols rows expected c).mpr ⟨hc, hnc⟩
    rw [h] at this
    simp at this
  · intro h
    rw [List.eq_nil_iff_forall_not_mem]
    intro c hc
    obtain ⟨hce, hcn⟩ := (mem_missingCols rows expected c).mp hc
    exact hcn (h c hce)

theorem mem_enumFrom_of_get? {α : Type} :
    ∀ (l : List α) (j : Nat) (a : α) (n : Nat),
      l.get? j = some a → (n + j, a) ∈ List.enumFrom n l
  | [], j, a, n => by simp
  | x :: xs, 0, a, n => by
    intro h
    simp at h
    simp [List.enumFrom, h]
  | x :: xs, j + 1, a, n => by
    intro h
    simp only [List.get?_cons_succ] at h
    have ih := mem_enumFrom_of_get? xs j a (n + 1) h
    have : n + (j + 1) = (n + 1) + j := by omega
    rw [this]
    exact List.mem_cons_of_mem _ ih

/-! ## Claims -/

/-- C4: for every path at which no file exists, `validate_csv` fails with a
`FileNotFoundError` naming the path, independently of the decode oracle — so
before any decoding or read attempt, and a missing file is never reported as a
decoding failure. -/
theorem claim_C4_missing_file :
    ∀ (path : String) (df : String → Option (List (List String)))
      (expected_columns : List String) (age_column : String),
      validate_csv false path df expected_columns age_column =
        .error (.fileNotFound ("File not found: " ++ path)) := by
  intro path df expected_columns age_column
  rfl

/-- C3: `read_csv_rows` tries the candidate encodings strictly in list order,
returning the parsed records with the first encoding under which the file
decodes; when every candidate fails it raises the `ValueError` naming the full
tuple of attempted encodings; and the default list is
utf-8, utf-8-sig, cp1252. -/
theorem claim_C3_encoding_fallback :
    ∀ (df : String → Option (List (List String))) (encodings : List String),
      (read_csv_rows df encodings =
        match List.find? (fun e => (df e).isSome) encodings with
        | some e => .ok (dictReader ((df e).getD []), e)
        | none =>
          .error (.valueError ("Could not decode file using encodings: " ++ pyStrTuple encodings))) ∧
      DEFAULT_ENCODINGS = ["utf-8", "utf-8-sig", "cp1252"] := by
  intro df encodings
  exact ⟨read_csv_rows_eq df encodings, rfl⟩

/-- C6: whenever decoding succeeds with zero parsed records — in particular on
a completely empty file — the pipeline fails with the empty-file `ValueError`
"CSV has no rows" at the schema-check stage, whatever the required columns. -/
theorem claim_C6_empty_input :
    ∀ (path : String) (df : String → Option (List (List String)))
      (expected_columns : List String) (age_column : String) (enc : String),
      read_csv_rows df DEFAULT_ENCODINGS = .ok ([], enc) →
      validate_csv true path df expected_columns age_column =
        .error (.valueError "CSV has no rows") := by
  intro path df expected_columns age_column enc h
  unfold validate_csv
  rw [h]
  rfl

/-- C1: every `ValidationResult` returned by `validate_csv` has `avg_age` set
exactly when `errors` is empty, and its `errors` field is exactly the
row-validator output for the decoded rows. -/
theorem claim_C1_avg_iff_errors :
    ∀ (pathExists : Bool) (path : String) (df : String → Option (List (List String)))
      (expected_columns : List String) (age_column : String)
      (r : ValidationResult) (rows : List Row) (enc : String),
      validate_csv pathExists path df expected_columns age_column = .ok r →
      read_csv_rows df DEFAULT_ENCODINGS = .ok (rows, enc) →
      ((r.avg_age.isSome ↔ r.errors = []) ∧ r.errors = validate_rows rows age_column) := by
  intro pe path df expected_columns age_column r rows enc h hread
  obtain ⟨rows2, enc2, hr, hc, hne, henc, htot, hcase⟩ :=
    validate_csv_ok_inv pe path df expected_columns age_column r h
  rw [hr] at hread
  injection hread with hpair
  injection hpair with hrows henc2
  subst hrows
  cases hcase with
  | inl hcase =>
    obtain ⟨hne2, herr, havg⟩ := hcase
    refine ⟨?_, herr⟩
    rw [herr, havg]
    simp [hne2]
  | inr hcase =>
    obtain ⟨hz, herr, avg, havg⟩ := hcase
    refine ⟨?_, by rw [herr, hz]⟩
    rw [herr, havg]
    simp

/-- C9: the division in `compute_summary` never divides by zero inside the
pipeline (a zero-record input is rejected by the schema check first), and a
direct call on zero rows fails fast with `ZeroDivisionError` instead of
returning a value. -/
theorem claim_C9_no_division_by_zero :
    (∀ (pathExists : Bool) (path : String) (df : String → Option (List (List String)))
        (expected_columns : List String) (age_column : String),
        validate_csv pathExists path df expected_columns age_column ≠
          .error .zeroDivisionError) ∧
    (∀ age_column : String,
        compute_summary [] age_column = .error .zeroDivisionError) := by
  constructor
  · intro pe path df expected_columns age_column h
    unfold validate_csv at h
    cases pe with
    | false => simp [validate_file_exists] at h
    | true =>
      simp only [validate_file_exists, if_true] at h
      cases hr : read_csv_rows df DEFAULT_ENCODINGS with
      | error e =>
        rw [hr] at h
        dsimp only at h
        obtain ⟨m, hm⟩ := read_csv_rows_error_shape df DEFAULT_ENCODINGS e hr
        simp [hm] at h
      | ok p =>
        obtain ⟨rows, enc⟩ := p
        rw [hr] at h
        dsimp only at h
        cases hc : validate_columns rows expected_columns with
        | error e =>
          rw [hc] at h
          dsimp only at h
          obtain ⟨m, hm⟩ := validate_columns_error_shape rows expected_columns e hc
          simp [hm] at h
        | ok u =>
          cases u
          rw [hc] at h
          dsimp only at h
          by_cases he : (validate_rows rows age_column).isEmpty
          · simp only [he, Bool.not_true, Bool.false_eq_true, if_false] at h
            cases hs : compute_summary rows age_column with
            | ok q => rw [hs] at h; dsimp only at h; cases q; simp at h
            | error e =>
              rw [hs] at h
              dsimp only at h
              simp at h
              rcases compute_summary_error_shape rows age_column e hs with ⟨_, hnil⟩ | ⟨m, hm⟩
              · exact validate_columns_ok_ne_nil rows expected_columns hc hnil
              · rw [hm] at h
                simp at h
          · simp only [he, Bool.not_false, if_true] at h
            simp at h
  · intro age_column
    rfl

/-- C10: a file of exactly one header line parses to zero records (the header
line is consumed as the field names), the pipeline turns it into the
"CSV has no rows" hard failure, and no successful `ValidationResult` with
`total_rows = 0` is reachable. -/
theorem claim_C10_header_only_file :
    (∀ header : List String, dictReader [header] = []) ∧
    (∀ (path : String) (df : String → Option (List (List String)))
        (expected_columns : List String) (age_column : String)
        (e : String) (header : List String),
        List.find? (fun e2 => (df e2).isSome) DEFAULT_ENCODINGS = some e →
        df e = some [header] →
        validate_csv true path df expected_columns age_column =
          .error (.valueError "CSV has no rows")) ∧
    (∀ (pathExists : Bool) (path : String) (df : String → Option (List (List String)))
        (expected_columns : List String) (age_column : String) (r : ValidationResult),
        validate_csv pathExists path df expected_columns age_column = .ok r →
        r.total_rows ≠ 0) := by
  refine ⟨fun header => rfl, ?_, ?_⟩
  · intro path df expected_columns age_column e header hf hdf
    have hread : read_csv_rows df DEFAULT_ENCODINGS = .ok ([], e) := by
      rw [read_csv_rows_eq, hf]
      dsimp only
      rw [hdf]
      rfl
    unfold validate_csv
    rw [hread]
    rfl
  · intro pe path df expected_columns age_column r h
    obtain ⟨rows, enc, hr, hc, hne, henc, htot, hcase⟩ :=
      validate_csv_ok_inv pe path df expected_columns age_column r h
    rw [htot]
    simp only [ne_eq, List.length_eq_zero]
    exact hne

/-- C2: `validate_rows` walks the rows in order with 1-based numbering; each
row contributes exactly the first-match-wins issue list described by
`rowIssueSpec` — overflow with its exact message first, else underflow with
its exact message, else the age check — hence at most one message per row;
and on `DictReader`-built rows `extra ≠ []` means more fields than header
columns while `hasMissing` means fewer. -/
theorem claim_C2_row_checks :
    ∀ (rows : List Row) (age_column : String),
      validate_rows rows age_column =
        List.flatten ((List.enumFrom 1 rows).map (fun p => rowIssueSpec p.1 p.2 age_column)) ∧
      (∀ (i : Nat) (row : Row), (rowIssueSpec i row age_column).length ≤ 1) ∧
      (∀ (i : Nat) (row : Row), row.extra ≠ [] →
          rowIssueSpec i row age_column = [tooManyMsg i row.extra]) ∧
      (∀ (i : Nat) (row : Row), row.extra = [] → hasMissing row = true →
          rowIssueSpec i row age_column = [missingColsMsg i]) ∧
      (∀ header vals : List String,
          ((mkRow header vals).extra ≠ [] ↔ header.length < vals.length) ∧
          (hasMissing (mkRow header vals) = true ↔ vals.length < header.length)) := by
  intro rows age_column
  refine ⟨validate_rows_eq rows age_column, ?_, ?_, ?_, ?_⟩
  · intro i row
    unfold rowIssueSpec
    split_ifs <;> simp
  · intro i row hex
    simp [rowIssueSpec, hex]
  · intro i row hex hm
    simp [rowIssueSpec, hex, hm]
  · intro header vals
    refine ⟨mkRow_extra_iff header vals, ?_⟩
    rw [hasMissing_mkRow]
    simp

/-- C5: on a non-empty record list the schema check succeeds exactly when the
header of the first record is a superset of the required columns; otherwise it
fails with the `ValueError` carrying the sorted list of required columns
absent from the header (and that list is sorted and holds exactly the absent
required columns). -/
theorem claim_C5_schema_check :
    ∀ (rows : List Row) (expected_columns : List String), rows ≠ [] →
      ((validate_columns rows expected_columns = .ok ()) ↔
        ∀ c ∈ expected_columns, c ∈ headerCols rows) ∧
      ((¬ ∀ c ∈ expected_columns, c ∈ headerCols rows) →
        validate_columns rows expected_columns =
          .error (.valueError ("Missing columns: " ++
            pyStrList (List.insertionSort (fun a b => a ≤ b)
              (missingCols rows expected_columns))))) ∧
      List.Sorted (fun a b : String => a ≤ b)
        (List.insertionSort (fun a b => a ≤ b) (missingCols rows expected_columns)) ∧
      (∀ c, c ∈ List.insertionSort (fun a b => a ≤ b) (missingCols rows expected_columns) ↔
          (c ∈ expected_columns ∧ c ∉ headerCols rows)) := by
  intro rows expected_columns hne
  have hempty : rows.isEmpty = false := by simpa [List.isEmpty_iff] using hne
  refine ⟨?_, ?_, ?_, ?_⟩
  · unfold validate_columns
    rw [hempty]
    simp only [Bool.false_eq_true, if_false]
    rw [← missingCols_nil_iff]
    by_cases hm : missingCols rows expected_columns = []
    · simp [hm]
    · have : (missingCols rows expected_columns).isEmpty = false := by
        simpa [List.isEmpty_iff] using hm
      simp [this, hm]
  · intro hnot
    unfold validate_columns
    rw [hempty]
    have hm : ¬ missingCols rows expected_columns = [] := by
      rw [missingCols_nil_iff]
      exact hnot
    have : (missingCols rows expected_columns).isEmpty = false := by
      simpa [List.isEmpty_iff] using hm
    simp [this]
  · exact List.sorted_insertionSort (fun a b => a ≤ b) (missingCols rows expected_columns)
  · intro c
    rw [(List.perm_insertionSort (fun a b => a ≤ b) (missingCols rows expected_columns)).mem_iff]
    exact mem_missingCols rows expected_columns c

/-- Row used to settle C7: correct field count, age value "1_0". -/
def c7row : Row := { cells := [("edad", some "1_0")], extra := [] }

/-- C7 counterexample: the claim "the age check accepts the row iff the
trimmed age value is a base-10 integer string" is false at the concrete row
whose age is "1_0" — Python's `int` accepts the underscore-grouped literal,
which is not a plain base-10 integer string. -/
theorem claim_C7_counterexample :
    ¬ (validate_rows [c7row] "edad" = [] ↔
        isBase10IntString (pyStrip (getOrEmpty c7row "edad")) = true) := by
  intro h
  have h1 : validate_rows [c7row] "edad" = [] := by rfl
  exact absurd (h.mp h1) (by decide)

/-- C7 amended: for a row with the correct field count, the age check accepts
the row iff the age value, after trimming surrounding whitespace (absent or
empty values reading as ""), conforms to the integer-literal grammar Python's
`int` accepts: an optional ASCII sign followed by decimal digits (Unicode
decimal digits included) in which a single underscore may stand between two
digits — strictly more than the plain base-10 integer strings. -/
theorem claim_C7_age_acceptance :
    ∀ (row : Row) (age_column : String), row.extra = [] → hasMissing row = false →
      (validate_rows [row] age_column = [] ↔
        PyIntLiteral (pyStrip (getOrEmpty row age_column))) := by
  intro row age_column hex hm
  rw [validate_rows_eq]
  have hiff := pyIntParse_isSome_iff (pyStrip (getOrEmpty row age_column))
  rw [← hiff]
  simp only [List.enumFrom, List.map_cons, List.map_nil, List.flatten,
    rowIssueSpec, hex, hm]
  cases hb : (pyIntParse (pyStrip (getOrEmpty row age_column))).isSome <;> simp [hb]

/-- C8: any row with the correct field count whose trimmed age value fails the
integer parse contributes exactly the message
"Row i: invalid age_column -> repr(value)" with the offending trimmed value
shown through Python `repr`. -/
theorem claim_C8_invalid_age_message :
    ∀ (rows : List Row) (age_column : String) (j : Nat) (row : Row),
      rows.get? j = some row → row.extra = [] → hasMissing row = false →
      pyIntParse (pyStrip (getOrEmpty row age_column)) = none →
      invalidAgeMsg (j + 1) age_column (pyStrip (getOrEmpty row age_column)) ∈
        validate_rows rows age_column := by
  intro rows age_column j row hget hex hm hp
  rw [validate_rows_eq]
  have hmem : (1 + j, row) ∈ List.enumFrom 1 rows :=
    mem_enumFrom_of_get? rows j row 1 hget
  have hspec : rowIssueSpec (1 + j) row age_column =
      [invalidAgeMsg (1 + j) age_column (pyStrip (getOrEmpty row age_column))] := by
    simp [rowIssueSpec, hex, hm, hp]
  rw [List.mem_flatten]
  refine ⟨rowIssueSpec (1 + j) row age_column, ?_, ?_⟩
  · exact List.mem_map_of_mem (fun p => rowIssueSpec p.1 p.2 age_column) hmem
  · rw [hspec]
    simp [Nat.add_comm 1 j]

/-- Decode oracle for the C1 witness: one data row with a non-numeric age. -/
def c1df : String → Option (List (List String)) :=
  fun _ => some [["id", "edad"], ["1", "abc"]]

/-- Rows the C1 witness file parses to. -/
def c1rows : List Row := [mkRow ["id", "edad"] ["1", "abc"]]

/-- Result the C1 witness run returns. -/
def c1res : ValidationResult :=
  { total_rows := 1, avg_age := none,
    errors := [invalidAgeMsg 1 "edad" "abc"], encoding_used := "utf-8" }

/-- C1 witness: the invariant instantiated on a concrete run with one invalid
row. -/
theorem claim_C1_witness :
    (c1res.avg_age.isSome ↔ c1res.errors = []) ∧
      c1res.errors = validate_rows c1rows "edad" :=
  claim_C1_avg_iff_errors true "data.csv" c1df ["id", "edad"] "edad" c1res c1rows "utf-8"
    (by rfl) (by rfl)

/-- Overflow row for the C2 witness. -/
def c2row1 : Row := { cells := [("edad", some "23")], extra := ["zz"] }

/-- Underflow row for the C2 witness. -/
def c2row2 : Row := { cells := [("edad", none)], extra := [] }

/-- Invalid-age row for the C2 witness. -/
def c2row3 : Row := { cells := [("edad", some "abc")], extra := [] }

/-- Valid row for the C2 witness. -/
def c2row4 : Row := { cells := [("edad", some " 31 ")], extra := [] }

/-- C2 witness: the characterization instantiated on four concrete rows, plus
the overflow and underflow clauses at concrete rows. -/
theorem claim_C2_witness :
    validate_rows [c2row1, c2row2, c2row3, c2row4] "edad" =
      [tooManyMsg 1 ["zz"], missingColsMsg 2, invalidAgeMsg 3 "edad" "abc"] ∧
    rowIssueSpec 1 c2row1 "edad" = [tooManyMsg 1 ["zz"]] ∧
    rowIssueSpec 2 c2row2 "edad" = [missingColsMsg 2] := by
  refine ⟨?_, ?_, ?_⟩
  · rw [(claim_C2_row_checks [c2row1, c2row2, c2row3, c2row4] "edad").1]
    rfl
  · exact (claim_C2_row_checks [c2row1, c2row2, c2row3, c2row4] "edad").2.2.1 1 c2row1
      (by decide)
  · exact (claim_C2_row_checks [c2row1, c2row2, c2row3, c2row4] "edad").2.2.2.1 2 c2row2
      rfl rfl

/-- Record list for the C5 witness: header lacks "ciudad". -/
def c5rows : List Row :=
  [{ cells := [("id", some "1"), ("nombre", some "a"), ("edad", some "23")], extra := [] }]

/-- Required columns for the C5 witness. -/
def c5expected : List String := ["id", "nombre", "edad", "ciudad"]

/-- C5 witness: the failure clause instantiated on a header missing
"ciudad". -/
theorem claim_C5_witness :
    validate_columns c5rows c5expected =
      .error (.valueError ("Missing columns: " ++
        pyStrList (List.insertionSort (fun a b => a ≤ b) (missingCols c5rows c5expected)))) :=
  (claim_C5_schema_check c5rows c5expected (by decide)).2.1 (by decide)

/-- Decode oracle for the C6 witness: a completely empty file. -/
def c6df : String → Option (List (List String)) := fun _ => some []

/-- C6 witness: the empty-file failure on a concrete run. -/
theorem claim_C6_witness :
    validate_csv true "data.csv" c6df ["id"] "edad" =
      .error (.valueError "CSV has no rows") :=
  claim_C6_empty_input "data.csv" c6df ["id"] "edad" "utf-8" (by rfl)

/-- C7 witness: the amended acceptance condition instantiated on the
underscore-grouped row. -/
theorem claim_C7_witness :
    validate_rows [c7row] "edad" = [] ↔
      PyIntLiteral (pyStrip (getOrEmpty c7row "edad")) :=
  claim_C7_age_acceptance c7row "edad" rfl rfl

/-- Row for the C8 witness. -/
def c8row : Row := { cells := [("id", some "1"), ("edad", some "abc")], extra := [] }

/-- C8 witness: the message membership instantiated on a concrete row with age
"abc". -/
theorem claim_C8_witness :
    invalidAgeMsg (0 + 1) "edad" (pyStrip (getOrEmpty c8row "edad")) ∈
      validate_rows [c8row] "edad" :=
  claim_C8_invalid_age_message [c8row] "edad" 0 c8row rfl rfl rfl rfl

/-- C9 witness: the direct zero-row call instantiated. -/
theorem claim_C9_witness :
    compute_summary ([] : List Row) "edad" = .error .zeroDivisionError :=
  claim_C9_no_division_by_zero.2 "edad"

/-- Decode oracle for the C10 witness: exactly one header line. -/
def c10df : String → Option (List (List String)) :=
  fun _ => some [["id", "nombre", "edad", "ciudad"]]

/-- C10 witness: the header-only failure on a concrete run. -/
theorem claim_C10_witness :
    validate_csv true "data.csv" c10df ["id", "nombre", "edad", "ciudad"] "edad" =
      .error (.valueError "CSV has no rows") :=
  claim_C10_header_only_file.2.1 "data.csv" c10df ["id", "nombre", "edad", "ciudad"] "edad"
    "utf-8" ["id", "nombre", "edad", "ciudad"] (by rfl) (by rfl)
